import Mathlib

/-!
Verification of the lesson-booking backend (SQLite store, `db.py`/`bot.py`/
`migrations.py`) against its natural-language specification.

The development shallowly embeds the program state as explicit records
(`Booking`, `Reminder`, `ClosedDate` rows inside a `DB` value), embeds the
timestamp parser `_parse_start_ts` (which composes Python's
`datetime.fromisoformat` with a `strptime('%Y-%m-%dT%H:%M:%S')` fallback and
`pytz.utc.localize`), and embeds each database operation mentioned by the
claims as a pure function on `DB`.  SQLite `TEXT` comparison is modelled as
byte-wise (code-point) lexicographic order on strings, matching the BINARY
collation; aware `datetime` comparison is modelled as comparison of the
denoted UTC instants in microseconds, which is Python's semantics for aware
values (the model extends it to naive values by treating them as UTC, which
is only exercised where the program compares naive with naive or the claim
supplies aware inputs).
-/

namespace LessonBot

/-- Model of a Python `datetime` value: calendar fields plus an optional
fixed UTC offset in seconds (`none` models a naive datetime). -/
structure PyDateTime where
  year : Nat
  month : Nat
  day : Nat
  hour : Nat
  minute : Nat
  second : Nat
  usec : Nat
  offset : Option Int
deriving DecidableEq, Repr

def isLeapYear (y : Nat) : Bool :=
  (y % 4 == 0 && y % 100 != 0) || (y % 400 == 0)

def daysInMonth (y m : Nat) : Nat :=
  if m == 2 then (if isLeapYear y then 29 else 28)
  else if m == 4 || m == 6 || m == 9 || m == 11 then 30
  else 31

/-- Range validation performed by the `datetime` constructor. -/
def validDate (y m d : Nat) : Bool :=
  1 ≤ y && y ≤ 9999 && 1 ≤ m && m ≤ 12 && 1 ≤ d && d ≤ daysInMonth y m

/-- Days since the Unix epoch of a civil date (standard days-from-civil
computation; all intermediate quantities are nonnegative for `y ≥ 1`). -/
def daysFromCivil (y m d : Nat) : Int :=
  let yi : Nat := if m ≤ 2 then y - 1 else y
  let era : Nat := yi / 400
  let yoe : Nat := yi - era * 400
  let mp : Nat := (m + 9) % 12
  let doy : Nat := (153 * mp + 2) / 5 + d - 1
  let doe : Nat := yoe * 365 + yoe / 4 - yoe / 100 + doy
  ((era * 146097 + doe : Nat) : Int) - 719468

/-- The UTC instant denoted by a datetime, in microseconds since the epoch.
Naive values are read with offset 0, which coincides with Python's
field-wise comparison when both operands are naive. -/
def PyDateTime.instantUSec (dt : PyDateTime) : Int :=
  (daysFromCivil dt.year dt.month dt.day * 86400
    + ((dt.hour * 3600 + dt.minute * 60 + dt.second : Nat) : Int)
    - dt.offset.getD 0) * 1000000 + (dt.usec : Int)

/-- `a < b` on datetimes (comparison of denoted instants). -/
def ltDT (a b : PyDateTime) : Bool := a.instantUSec < b.instantUSec

/-- `a ≤ b` on datetimes (comparison of denoted instants). -/
def leDT (a b : PyDateTime) : Bool := a.instantUSec ≤ b.instantUSec

/-- Insertion step of the sort used to model SQL `ORDER BY` (structurally
recursive so that concrete states evaluate inside the kernel). -/
def insertRow (le : α → α → Bool) (x : α) : List α → List α
  | [] => [x]
  | y :: ys => if le x y then x :: y :: ys else y :: insertRow le x ys

/-- Stable insertion sort modelling SQL `ORDER BY` with respect to the
total preorder `le`. -/
def sortRows (le : α → α → Bool) : List α → List α
  | [] => []
  | x :: xs => insertRow le x (sortRows le xs)

theorem mem_insertRow (le : α → α → Bool) (x a : α) (l : List α) :
    a ∈ insertRow le x l ↔ a = x ∨ a ∈ l := by
  induction l with
  | nil => simp [insertRow]
  | cons y ys ih =>
    unfold insertRow
    split
    · simp
    · simp only [List.mem_cons, ih]
      tauto

theorem mem_sortRows (le : α → α → Bool) (a : α) (l : List α) :
    a ∈ sortRows le l ↔ a ∈ l := by
  induction l with
  | nil => simp [sortRows]
  | cons y ys ih => simp [sortRows, mem_insertRow, ih]

/-- SQLite BINARY collation: byte-wise lexicographic order on text. -/
def textLtAux : List Char → List Char → Bool
  | [], [] => false
  | [], _ :: _ => true
  | _ :: _, [] => false
  | a :: as, b :: bs =>
    if a.toNat < b.toNat then true
    else if a.toNat == b.toNat then textLtAux as bs
    else false

def sqlTextLt (a b : String) : Bool := textLtAux a.toList b.toList

/-- `a >= b` on SQLite TEXT values. -/
def sqlTextGe (a b : String) : Bool := !sqlTextLt a b

def digitVal (c : Char) : Option Nat :=
  if '0' ≤ c ∧ c ≤ '9' then some (c.toNat - '0'.toNat) else none

def digits2 : List Char → Option (Nat × List Char)
  | c1 :: c2 :: rest =>
    match digitVal c1, digitVal c2 with
    | some a, some b => some (10 * a + b, rest)
    | _, _ => none
  | _ => none

/-- The `YYYY-MM-DD` prefix accepted by `datetime.fromisoformat`. -/
def parseDate10 : List Char → Option (Nat × Nat × Nat × List Char)
  | y1 :: y2 :: y3 :: y4 :: '-' :: m1 :: m2 :: '-' :: d1 :: d2 :: rest =>
    match digitVal y1, digitVal y2, digitVal y3, digitVal y4,
          digitVal m1, digitVal m2, digitVal d1, digitVal d2 with
    | some a, some b, some c, some d, some e, some f, some g, some h =>
      some (1000 * a + 100 * b + 10 * c + d, 10 * e + f, 10 * g + h, rest)
    | _, _, _, _, _, _, _, _ => none
  | _ => none

/-- Fractional seconds: exactly 3 or 6 digits after the dot
(CPython `_parse_hh_mm_ss_ff`). -/
def parseFrac : List Char → Option Nat
  | [a, b, c] =>
    match digitVal a, digitVal b, digitVal c with
    | some x, some y, some z => some ((100 * x + 10 * y + z) * 1000)
    | _, _, _ => none
  | [a, b, c, d, e, f] =>
    match digitVal a, digitVal b, digitVal c, digitVal d, digitVal e, digitVal f with
    | some u, some v, some w, some x, some y, some z =>
      some (100000 * u + 10000 * v + 1000 * w + 100 * x + 10 * y + z)
    | _, _, _, _, _, _ => none
  | _ => none

/-- `HH[:MM[:SS[.fff|.ffffff]]]`, consuming the whole component list
(CPython `_parse_hh_mm_ss_ff`). -/
def parseHMSF (cs : List Char) : Option (Nat × Nat × Nat × Nat) :=
  match digits2 cs with
  | none => none
  | some (hh, rest) =>
    match rest with
    | [] => some (hh, 0, 0, 0)
    | ':' :: rest2 =>
      match digits2 rest2 with
      | none => none
      | some (mm, rest3) =>
        match rest3 with
        | [] => some (hh, mm, 0, 0)
        | ':' :: rest4 =>
          match digits2 rest4 with
          | none => none
          | some (ss, rest5) =>
            match rest5 with
            | [] => some (hh, mm, ss, 0)
            | '.' :: rest6 => (parseFrac rest6).map (fun u => (hh, mm, ss, u))
            | _ => none
        | _ => none
    | _ => none

/-- Timezone tail after the sign: `HH:MM` or `HH:MM:SS`, validated by the
`timezone` constructor to be strictly less than 24 hours in magnitude.
Returns the offset magnitude in seconds. -/
def parseTzTail (cs : List Char) : Option Nat :=
  match digits2 cs with
  | none => none
  | some (hh, rest) =>
    match rest with
    | ':' :: rest2 =>
      match digits2 rest2 with
      | none => none
      | some (mm, rest3) =>
        match rest3 with
        | [] =>
          if hh * 3600 + mm * 60 < 86400 then some (hh * 3600 + mm * 60) else none
        | ':' :: rest4 =>
          match digits2 rest4 with
          | some (ss, []) =>
            if hh * 3600 + mm * 60 + ss < 86400 then some (hh * 3600 + mm * 60 + ss)
            else none
          | _ => none
        | _ => none
    | _ => none

def splitAtFirst (c : Char) : List Char → Option (List Char × List Char)
  | [] => none
  | x :: xs =>
    if x == c then some ([], xs)
    else (splitAtFirst c xs).map (fun p => (x :: p.1, p.2))

/-- The time-of-day part of `fromisoformat` including an optional UTC
offset.  CPython splits at the first `-` if present, otherwise at the
first `+` (`tstr.find` logic in `_parse_isoformat_time`). -/
def parseIsoTime (cs : List Char) : Option ((Nat × Nat × Nat × Nat) × Option Int) :=
  if cs.length < 2 then none
  else
    match splitAtFirst '-' cs with
    | some (tpart, tzpart) =>
      match parseHMSF tpart, parseTzTail tzpart with
      | some t, some off => some (t, some (-(off : Int)))
      | _, _ => none
    | none =>
      match splitAtFirst '+' cs with
      | some (tpart, tzpart) =>
        match parseHMSF tpart, parseTzTail tzpart with
        | some t, some off => some (t, some (off : Int))
        | _, _ => none
      | none => (parseHMSF cs).map (fun t => (t, none))

/-- Model of `datetime.fromisoformat` (pre-3.11 grammar, the one required by
the stored `isoformat()` strings): a 10-character date, optionally followed
by one arbitrary separator character and a time with optional offset, with
range validation as in the `datetime` constructor. -/
def fromisoformat (s : String) : Option PyDateTime :=
  match parseDate10 s.toList with
  | none => none
  | some (y, m, d, rest) =>
    match rest with
    | [] => if validDate y m d then some ⟨y, m, d, 0, 0, 0, 0, none⟩ else none
    | _sep :: timeCs =>
      match parseIsoTime timeCs with
      | none => none
      | some ((hh, mm, ss, us), off) =>
        if validDate y m d && hh ≤ 23 && mm ≤ 59 && ss ≤ 59 then
          some ⟨y, m, d, hh, mm, ss, us, off⟩
        else none

def expectChar (c : Char) (cs : List Char) (k : List Char → Option α) : Option α :=
  match cs with
  | x :: rest => if x == c then k rest else none
  | [] => none

/-- A one-or-two digit numeric field as matched by Python's `strptime`
regexes (`%m`, `%d`, `%H`, `%M`, `%S`): the two-digit alternative is tried
first (within `[twoLo, twoHi]`) and the parser backtracks to the one-digit
alternative (value at least `oneMin`) when the continuation fails. -/
def fieldAlt (twoLo twoHi oneMin : Nat) (cs : List Char)
    (k : Nat → List Char → Option α) : Option α :=
  let twoTry : Option α :=
    match cs with
    | a :: b :: rest =>
      match digitVal a, digitVal b with
      | some x, some y =>
        let v := 10 * x + y
        if twoLo ≤ v ∧ v ≤ twoHi then k v rest else none
      | _, _ => none
    | _ => none
  match twoTry with
  | some r => some r
  | none =>
    match cs with
    | a :: rest =>
      match digitVal a with
      | some x => if oneMin ≤ x then k x rest else none
      | none => none
    | [] => none

def year4 (cs : List Char) (k : Nat → List Char → Option α) : Option α :=
  match cs with
  | a :: b :: c :: d :: rest =>
    match digitVal a, digitVal b, digitVal c, digitVal d with
    | some w, some x, some y, some z => k (1000 * w + 100 * x + 10 * y + z) rest
    | _, _, _, _ => none
  | _ => none

/-- Model of `datetime.strptime(ts, '%Y-%m-%dT%H:%M:%S')`: the whole string
must match, `%S` additionally admits 60/61 at the regex level but the
`datetime` constructor then rejects seconds above 59, and the constructor
validates the calendar date. -/
def strptime_YmdTHMS (s : String) : Option PyDateTime :=
  year4 s.toList fun y cs =>
  expectChar '-' cs fun cs =>
  fieldAlt 1 12 1 cs fun mo cs =>
  expectChar '-' cs fun cs =>
  fieldAlt 1 31 1 cs fun dy cs =>
  expectChar 'T' cs fun cs =>
  fieldAlt 0 23 0 cs fun hh cs =>
  expectChar ':' cs fun cs =>
  fieldAlt 0 59 0 cs fun mi cs =>
  expectChar ':' cs fun cs =>
  fieldAlt 0 61 0 cs fun ss cs =>
  match cs with
  | [] =>
    if validDate y mo dy && ss ≤ 59 then some ⟨y, mo, dy, hh, mi, ss, 0, none⟩
    else none
  | _ => none

/-- `pytz.utc.localize`: attach the UTC offset to a naive datetime. -/
def pytz_utc_localize (d : PyDateTime) : PyDateTime := { d with offset := some 0 }

/-- Model of `db._parse_start_ts`: empty text gives `None`; otherwise try
`fromisoformat`, then the `strptime` fallback; a naive result is localized
to UTC. -/
def _parse_start_ts (ts : String) : Option PyDateTime :=
  if ts == "" then none
  else
    let parsed : Option PyDateTime :=
      match fromisoformat ts with
      | some d => some d
      | none => strptime_YmdTHMS ts
    match parsed with
    | none => none
    | some d => some (if d.offset == none then pytz_utc_localize d else d)

example : fromisoformat "2026-01-01T07:30:00+00:00" =
    some ⟨2026, 1, 1, 7, 30, 0, 0, some 0⟩ := by decide
example : fromisoformat "2026-01-01 07:30:00.123456" =
    some ⟨2026, 1, 1, 7, 30, 0, 123456, none⟩ := by decide
example : fromisoformat "2026-01-01T07:30:00-05:30" =
    some ⟨2026, 1, 1, 7, 30, 0, 0, some (-19800)⟩ := by decide
example : fromisoformat "2026-01-01" = some ⟨2026, 1, 1, 0, 0, 0, 0, none⟩ := by decide
example : fromisoformat "2026-02-30" = none := by decide
example : fromisoformat "2026-13-01T00:00:00" = none := by decide
example : fromisoformat "garbage" = none := by decide
example : strptime_YmdTHMS "2026-1-1T5:3:2" = some ⟨2026, 1, 1, 5, 3, 2, 0, none⟩ := by decide
example : strptime_YmdTHMS "2026-01-01T07:30:00" = some ⟨2026, 1, 1, 7, 30, 0, 0, none⟩ := by decide
example : strptime_YmdTHMS "2026-01-01T07:30:60" = none := by decide
example : _parse_start_ts "" = none := by decide
example : _parse_start_ts "2026-01-01T07:30:00" = some ⟨2026, 1, 1, 7, 30, 0, 0, some 0⟩ := by decide
example : _parse_start_ts "2026-01-01T07:30:00+05:00" =
    some ⟨2026, 1, 1, 7, 30, 0, 0, some 18000⟩ := by decide
example : ltDT ⟨2026, 1, 1, 7, 0, 0, 0, some 18000⟩ ⟨2026, 1, 1, 7, 0, 0, 0, some 0⟩ = true := by
  decide
example : sqlTextLt "2026-01-01 12:00:00" "2026-01-01T00:00:00+00:00" = true := by decide
example : PyDateTime.instantUSec ⟨1970, 1, 1, 0, 0, 0, 0, some 0⟩ = 0 := by decide
example : PyDateTime.instantUSec ⟨2026, 1, 5, 0, 0, 0, 0, some 0⟩ = 1767571200000000 := by
  decide

/-- A row of the `bookings` table. -/
structure Booking where
  id : Nat
  user_id : Int
  date : String
  time : String
  start_ts : String
  branch : String
  purpose : String
  active : Bool
  created_at : String
deriving DecidableEq, Repr

/-- A row of the `reminders` table. -/
structure Reminder where
  id : Nat
  booking_id : Nat
  user_id : Int
  admin_id : Option Int
  reminder_type : String
  remind_time : String
  scheduled_time : String
  sent : Bool
  created_at : String
deriving DecidableEq, Repr

/-- A row of the `closed_dates` table (`date` is the primary key). -/
structure ClosedDate where
  date : String
  reason : String
  created_at : String
deriving DecidableEq, Repr

/-- The SQLite database state: table contents plus the AUTOINCREMENT counter
for `bookings.id`. -/
structure DB where
  bookings : List Booking
  reminders : List Reminder
  closed_dates : List ClosedDate
  nextBookingId : Nat
deriving DecidableEq, Repr

/-- `db.is_slot_free`: no active booking stores exactly this `start_ts` text
(`SELECT COUNT(*) FROM bookings WHERE start_ts=? AND active=1`). -/
def is_slot_free (db : DB) (start_ts : String) : Bool :=
  db.bookings.countP (fun b => b.start_ts == start_ts && b.active) == 0

/-- `db.add_booking`: inside one transaction, re-count active bookings at
`start_ts`; raise `ValueError('Slot is already taken')` when positive,
otherwise insert the new active row and return its id. -/
def add_booking (db : DB) (user_id : Int)
    (date time start_ts branch purpose now : String) : Except String (Nat × DB) :=
  if db.bookings.countP (fun b => b.start_ts == start_ts && b.active) > 0 then
    .error "Slot is already taken"
  else
    let bid := db.nextBookingId
    let b : Booking := ⟨bid, user_id, date, time, start_ts, branch, purpose, true, now⟩
    .ok (bid, { db with bookings := db.bookings ++ [b], nextBookingId := bid + 1 })

/-- `db.cancel_booking`: `UPDATE bookings SET active=0 WHERE id=?`
(unconditional, commits whether or not a row matched). -/
def cancel_booking (db : DB) (booking_id : Nat) : DB :=
  { db with
    bookings := db.bookings.map (fun b =>
      if b.id == booking_id then { b with active := false } else b) }

/-- `db.count_user_bookings_in_week`: fetch the user's active rows, parse
the window bounds with `fromisoformat` (ignoring each bound when it fails
to parse), and count rows whose parsed `start_ts` lies in
`[week_start, week_end)`; unparsable rows are skipped. -/
def count_user_bookings_in_week (db : DB) (user_id : Int)
    (week_start_ts week_end_ts : String) : Nat :=
  let rows := db.bookings.filter (fun b => b.user_id == user_id && b.active)
  if rows.isEmpty then 0
  else
    let start := fromisoformat week_start_ts
    let stop := fromisoformat week_end_ts
    rows.countP (fun b =>
      match _parse_start_ts b.start_ts with
      | none => false
      | some d =>
        (match start with
         | some s => !ltDT d s
         | none => true) &&
        (match stop with
         | some e => ltDT d e
         | none => true))

/-- `db.add_closed_date`: `INSERT OR REPLACE INTO closed_dates` keyed by
`date`. -/
def add_closed_date (db : DB) (date reason now : String) : DB :=
  { db with
    closed_dates :=
      ⟨date, reason, now⟩ :: db.closed_dates.filter (fun c => !(c.date == date)) }

/-- `db.is_date_closed`: `SELECT 1 FROM closed_dates WHERE date=?`. -/
def is_date_closed (db : DB) (date : String) : Bool :=
  db.closed_dates.any (fun c => c.date == date)

/-- `db.get_closed_date_reason`. -/
def get_closed_date_reason (db : DB) (date : String) : Option String :=
  (db.closed_dates.find? (fun c => c.date == date)).map (fun c => c.reason)

/-- `db.remove_closed_date`: `DELETE FROM closed_dates WHERE date=?`. -/
def remove_closed_date (db : DB) (date : String) : DB :=
  { db with closed_dates := db.closed_dates.filter (fun c => !(c.date == date)) }

/-- `db.get_unsent_reminders`: join each unsent reminder with its still
active owning booking and order by the raw `scheduled_time` text
(`ORDER BY r.scheduled_time ASC`; the `LEFT JOIN users` only contributes
the language column and is omitted from the model). -/
def get_unsent_reminders (db : DB) : List (Reminder × Booking) :=
  sortRows (fun x y => !sqlTextLt y.1.scheduled_time x.1.scheduled_time)
    ((db.reminders.flatMap (fun r =>
        db.bookings.filterMap (fun b =>
          if r.booking_id == b.id then some (r, b) else none))).filter
      (fun rb => !rb.1.sent && rb.2.active))

/-- The `now` used by `db.get_due_reminders`: parse `now_iso` when given
(localizing a naive result to UTC) and fall back to the wall clock
(`datetime.now(pytz.utc)`, the `clock` parameter) otherwise. -/
def due_now (now_iso : Option String) (clock : PyDateTime) : PyDateTime :=
  match now_iso with
  | some s =>
    match fromisoformat s with
    | some n => if n.offset == none then pytz_utc_localize n else n
    | none => clock
  | none => clock

/-- `db.get_due_reminders`: keep the unsent-joined-active rows whose parsed
`scheduled_time` is at most `now`; rows whose `scheduled_time` fails to
parse are skipped. -/
def get_due_reminders (db : DB) (now_iso : Option String) (clock : PyDateTime) :
    List (Reminder × Booking) :=
  let now := due_now now_iso clock
  (get_unsent_reminders db).filter (fun rb =>
    match _parse_start_ts rb.1.scheduled_time with
    | none => false
    | some sched => leDT sched now)

/-- `db.count_upcoming_bookings`: `COUNT(*) WHERE active=1 AND start_ts>=?`
with `?` bound to `now` — a raw TEXT comparison. -/
def count_upcoming_bookings (db : DB) (now_iso : String) : Nat :=
  db.bookings.countP (fun b => b.active && sqlTextGe b.start_ts now_iso)

/-- `db.get_upcoming_bookings_paginated`: TEXT filter `start_ts>=now`,
TEXT sort `ORDER BY start_ts ASC`, then `LIMIT ? OFFSET ?`. -/
def get_upcoming_bookings_paginated (db : DB) (now_iso : String)
    (limit offset : Nat) : List Booking :=
  (((sortRows (fun a b => !sqlTextLt b.start_ts a.start_ts)
      (db.bookings.filter (fun b => b.active && sqlTextGe b.start_ts now_iso))).drop
    offset).take limit)

/-- `db.list_upcoming_bookings`: fetch active rows, keep the ones whose
parsed `start_ts` is at least `now`, and sort by the parsed datetime. -/
def list_upcoming_bookings (db : DB) (now : PyDateTime) : List Booking :=
  let items := db.bookings.filterMap (fun b =>
    if b.active then
      match _parse_start_ts b.start_ts with
      | none => none
      | some d => if leDT now d then some (b, d) else none
    else none)
  (sortRows (fun x y => leDT x.2 y.2) items).map (fun x => x.1)

/-- `db.list_user_bookings`: as `list_upcoming_bookings` but restricted to
one user's rows. -/
def list_user_bookings (db : DB) (user_id : Int) (now : PyDateTime) : List Booking :=
  let rows := db.bookings.filter (fun b => b.user_id == user_id && b.active)
  let items := rows.filterMap (fun b =>
    match _parse_start_ts b.start_ts with
    | none => none
    | some d => if leDT now d then some (b, d) else none)
  (sortRows (fun x y => leDT x.2 y.2) items).map (fun x => x.1)

/-- `db.delete_past_bookings`: collect ids with `start_ts < now` (raw TEXT
comparison), then delete those bookings and their reminders. -/
def delete_past_bookings (db : DB) (now_iso : String) : DB :=
  let ids := (db.bookings.filter (fun b => sqlTextLt b.start_ts now_iso)).map
    (fun b => b.id)
  { db with
    bookings := db.bookings.filter (fun b => !ids.contains b.id),
    reminders := db.reminders.filter (fun r => !ids.contains r.booking_id) }

/-- Outcome of one reservation attempt as it flows through the handlers
`date_selected` → `slot_selected` → `purpose_selected` in `bot.py`. -/
inductive ReserveOutcome where
  | dateClosed (reason : Option String)
  | quotaExceeded
  | slotTaken
  | booked (bid : Nat) (db' : DB)
deriving DecidableEq, Repr

/-- The booking pipeline of `bot.py`, linearized: `date_selected` refuses a
closed date (showing its reason when present) before offering any slot;
`slot_selected` rejects when the user's active-bookings count in the week
window reaches 50 and when the slot is taken; `purpose_selected` re-checks
the slot and calls `add_booking`, whose own in-transaction check is the
authoritative one. -/
def reserveFlow (db : DB) (uid : Int) (date time start_ts branch purpose : String)
    (week_start_utc week_end_utc now : String) : ReserveOutcome :=
  if is_date_closed db date then .dateClosed (get_closed_date_reason db date)
  else if count_user_bookings_in_week db uid week_start_utc week_end_utc ≥ 50 then
    .quotaExceeded
  else if !is_slot_free db start_ts then .slotTaken
  else
    match add_booking db uid date time start_ts branch purpose now with
    | .error _ => .slotTaken
    | .ok (bid, db') => .booked bid db'

/-- A `job_queue.run_once` timer armed by the startup replay: the reminder
it delivers, the chat it targets, and the naive-UTC firing time. -/
structure ArmedJob where
  reminder_id : Nat
  chat_id : Int
  when_naive : PyDateTime
deriving DecidableEq, Repr

/-- `{ d with offset := some 0 }` models `replace(tzinfo=pytz.utc)`. -/
def replace_tzinfo_utc (d : PyDateTime) : PyDateTime := { d with offset := some 0 }

/-- `{ d with offset := none }` models `replace(tzinfo=None)`. -/
def replace_tzinfo_none (d : PyDateTime) : PyDateTime := { d with offset := none }

/-- The per-reminder body of the startup loop in `bot.py`: parse
`scheduled_time` with `fromisoformat` and reinterpret it as UTC
(`replace(tzinfo=pytz.utc)`); arm one-shot jobs only when that instant is
strictly after `now`; a `fromisoformat` failure on `scheduled_time` or on
the joined `start_ts` raises inside the per-reminder `try` and the reminder
is skipped; a student reminder yields one job to the student's chat, a
teacher reminder one job per configured admin, and any other type none. -/
def arm_jobs_for (now_utc : PyDateTime) (admin_ids : List Int)
    (rb : Reminder × Booking) : List ArmedJob :=
  match fromisoformat rb.1.scheduled_time with
  | none => []
  | some d0 =>
    let sched := replace_tzinfo_utc d0
    if ltDT now_utc sched then
      let when_naive := replace_tzinfo_none sched
      if rb.1.reminder_type == "student" then
        match fromisoformat rb.2.start_ts with
        | none => []
        | some _ => [⟨rb.1.id, rb.1.user_id, when_naive⟩]
      else if rb.1.reminder_type == "teacher" then
        match fromisoformat rb.2.start_ts with
        | none => []
        | some _ => admin_ids.map (fun a => ⟨rb.1.id, a, when_naive⟩)
      else []
    else []

/-- The `startup` callback of `bot.py`: first `delete_past_bookings`, then
arm one-shot timers from the unsent reminders of the pruned database; due
reminders are not delivered here — the repeating `send_reminders_task`
(armed last, first pass after 10s) picks them up via `get_due_reminders`. -/
def startup_armed_jobs (db : DB) (now_iso : String) (now_utc : PyDateTime)
    (admin_ids : List Int) : List ArmedJob :=
  (get_unsent_reminders (delete_past_bookings db now_iso)).flatMap
    (arm_jobs_for now_utc admin_ids)

/-- A registered migration: its unique name and its action on the store,
with an exception modelled as `.error`. -/
def Migration (σ : Type) := String × (σ → Except String σ)

/-- The pending computation of `migrations.run_all_migrations`:
registered migrations, in registration order, whose names are not yet
recorded in `_migrations`. -/
def pendingOf (migs : List (Migration σ)) (applied : List String) :
    List (Migration σ) :=
  migs.filter (fun nm => !applied.contains nm.1)

/-- `migrations.mark_migration_applied`: `INSERT OR IGNORE` of the name. -/
def mark_migration_applied (applied : List String) (name : String) : List String :=
  if applied.contains name then applied else applied ++ [name]

/-- The loop of `run_all_migrations`: run each pending migration in order,
recording it only after it returns; the first exception aborts the loop
(re-raised), leaving the failed and later migrations unrecorded. -/
def runPendingGo : List (Migration σ) → List String → σ →
    Except (String × List String × σ) (List String × σ)
  | [], applied, s => .ok (applied, s)
  | (name, f) :: rest, applied, s =>
    match f s with
    | .error _ => .error (name, applied, s)
    | .ok s' => runPendingGo rest (mark_migration_applied applied name) s'

/-- `migrations.run_all_migrations` over an explicit store state. -/
def run_all_migrations (migs : List (Migration σ)) (applied : List String) (s : σ) :
    Except (String × List String × σ) (List String × σ) :=
  runPendingGo (pendingOf migs applied) applied s

/-- The central invariant: at most one active booking per `start_ts` text
(per canonical instant, since `start_ts` is the canonical UTC string). -/
def SlotUnique (db : DB) : Prop :=
  ∀ ts : String, db.bookings.countP (fun b => b.start_ts == ts && b.active) ≤ 1

/-- C1: slot-uniqueness invariant.  If some active booking already holds the
requested `start_ts`, `add_booking` raises `Slot is already taken` and
inserts nothing; and whenever `add_booking` succeeds from a state with at
most one active booking per instant, the resulting state again has at most
one active booking per instant. -/
theorem C1_slot_uniqueness_preserved (db : DB) (uid : Int)
    (date time ts branch purpose now : String) (hinv : SlotUnique db) :
    ((∃ b ∈ db.bookings, b.active = true ∧ b.start_ts = ts) →
      add_booking db uid date time ts branch purpose now =
        .error "Slot is already taken") ∧
    (∀ bid db', add_booking db uid date time ts branch purpose now = .ok (bid, db') →
      SlotUnique db') := by
  constructor
  · rintro ⟨b, hb, hact, hts⟩
    have hpos : 0 < db.bookings.countP (fun b => b.start_ts == ts && b.active) := by
      rw [List.countP_pos_iff]
      exact ⟨b, hb, by simp [hts, hact]⟩
    simp [add_booking, hpos]
  · intro bid db' h
    unfold add_booking at h
    split at h
    · exact absurd h (by simp)
    · rename_i hc
      have hc0 : db.bookings.countP (fun b => b.start_ts == ts && b.active) = 0 :=
        Nat.eq_zero_of_not_pos hc
      simp only [Except.ok.injEq, Prod.mk.injEq] at h
      obtain ⟨-, hdb⟩ := h
      subst hdb
      intro ts'
      by_cases hts : ts = ts'
      · subst hts
        simp only [List.countP_append, hc0, Nat.zero_add]
        simp [List.countP_cons]
      · have := hinv ts'
        simpa [List.countP_append, hts] using this

def c1db : DB :=
  ⟨[⟨1, 7, "2026-01-05", "12:00", "2026-01-05T07:00:00+00:00", "branch_1",
     "Grammar", true, "t0"⟩], [], [], 2⟩

/-- Witness for C1 at a one-booking state: re-booking the taken instant is
refused. -/
theorem C1_witness :
    add_booking c1db 8 "2026-01-05" "12:00" "2026-01-05T07:00:00+00:00" "branch_1"
      "Speaking" "t1" = .error "Slot is already taken" := by
  have hinv : SlotUnique c1db := fun ts =>
    le_trans (List.countP_le_length _) (by simp [c1db])
  exact (C1_slot_uniqueness_preserved c1db 8 "2026-01-05" "12:00"
    "2026-01-05T07:00:00+00:00" "branch_1" "Speaking" "t1" hinv).1 (by decide)

/-- C2: weekly quota.  When the user's in-window count of active bookings
(parsed `start_ts` in `[week_start, week_end)` of the target slot's
Monday-to-Sunday week, as computed by `count_user_bookings_in_week`) has
reached 50, the flow stops with the quota rejection; an attempt whose week
window counts below 50 passes the quota gate and, with a free slot, books
successfully. -/
theorem C2_weekly_quota (db : DB) (uid : Int)
    (date time ts branch purpose ws we now : String)
    (date' time' ts' ws' we' : String)
    (hclosed : is_date_closed db date = false)
    (hclosed' : is_date_closed db date' = false)
    (h50 : count_user_bookings_in_week db uid ws we = 50)
    (hlt : count_user_bookings_in_week db uid ws' we' < 50)
    (hfree : is_slot_free db ts' = true) :
    reserveFlow db uid date time ts branch purpose ws we now = .quotaExceeded ∧
    reserveFlow db uid date' time' ts' branch purpose ws' we' now =
      .booked db.nextBookingId
        { db with
          bookings := db.bookings ++
            [⟨db.nextBookingId, uid, date', time', ts', branch, purpose, true, now⟩],
          nextBookingId := db.nextBookingId + 1 } := by
  have hc0 : db.bookings.countP (fun b => b.start_ts == ts' && b.active) = 0 := by
    simpa [is_slot_free] using hfree
  constructor
  · simp [reserveFlow, hclosed, h50]
  · simp [reserveFlow, hclosed', Nat.not_le.mpr hlt, is_slot_free, hc0, add_booking]

/-- Fifty active bookings for user 7, all inside the week starting Monday
2026-01-05 (UTC): days 05–09, hours 00–09. -/
def c2db : DB :=
  ⟨(List.range 50).map (fun i =>
      ⟨i + 1, 7, "2026-01-0" ++ toString (5 + i / 10), "bot-local",
       "2026-01-0" ++ toString (5 + i / 10) ++ "T0" ++ toString (i % 10) ++
         ":00:00+00:00",
       "branch_1", "Grammar", true, "t0"⟩),
   [], [], 51⟩

/-- Witness for C2: with 50 active bookings in the week of 2026-01-05, a
51st attempt in that week is rejected with the quota outcome while an
attempt in the following week books. -/
theorem C2_witness :
    reserveFlow c2db 7 "2026-01-07" "16:00" "2026-01-07T11:00:00+00:00" "branch_1"
      "Grammar" "2026-01-05T00:00:00+00:00" "2026-01-12T00:00:00+00:00" "t1" =
      .quotaExceeded ∧
    reserveFlow c2db 7 "2026-01-14" "16:00" "2026-01-14T11:00:00+00:00" "branch_1"
      "Grammar" "2026-01-12T00:00:00+00:00" "2026-01-19T00:00:00+00:00" "t1" =
      .booked 51
        { c2db with
          bookings := c2db.bookings ++
            [⟨51, 7, "2026-01-14", "16:00", "2026-01-14T11:00:00+00:00", "branch_1",
              "Grammar", true, "t1"⟩],
          nextBookingId := 52 } :=
  C2_weekly_quota c2db 7 "2026-01-07" "16:00" "2026-01-07T11:00:00+00:00" "branch_1"
    "Grammar" "2026-01-05T00:00:00+00:00" "2026-01-12T00:00:00+00:00" "t1"
    "2026-01-14" "16:00" "2026-01-14T11:00:00+00:00"
    "2026-01-12T00:00:00+00:00" "2026-01-19T00:00:00+00:00"
    (by decide) (by decide) (by decide) (by decide) (by decide)

/-- C3: closed-date enforcement.  After `add_closed_date d reason`, the date
reads as closed, a reservation attempt on `d` stops at the `date_selected`
gate with the stored reason and no booking row is created; `remove_closed_date`
reopens the date, restoring the state (and hence the flow) that closing had
changed; and `add_booking` itself never consults `closed_dates`: its result
is the same for every value of that table. -/
theorem C3_closed_date_enforcement (db : DB) (d reason nowc : String) (uid : Int)
    (time ts branch purpose ws we now : String) :
    is_date_closed (add_closed_date db d reason nowc) d = true ∧
    reserveFlow (add_closed_date db d reason nowc) uid d time ts branch purpose ws we
      now = .dateClosed (some reason) ∧
    (add_closed_date db d reason nowc).bookings = db.bookings ∧
    is_date_closed (remove_closed_date (add_closed_date db d reason nowc) d) d =
      false ∧
    remove_closed_date (add_closed_date db d reason nowc) d =
      remove_closed_date db d ∧
    (is_date_closed db d = false → remove_closed_date db d = db) ∧
    (∀ cds : List ClosedDate,
      add_booking { db with closed_dates := cds } uid d time ts branch purpose now =
        (add_booking db uid d time ts branch purpose now).map
          (fun x => (x.1, { x.2 with closed_dates := cds }))) := by
  refine ⟨?_, ?_, ?_, ?_, ?_, ?_, ?_⟩
  · simp [is_date_closed, add_closed_date]
  · simp [reserveFlow, is_date_closed, add_closed_date, get_closed_date_reason]
  · rfl
  · simp [is_date_closed, remove_closed_date, add_closed_date, List.mem_filter]
  · have hff : ∀ l : List ClosedDate,
        (l.filter (fun c => !(c.date == d))).filter (fun c => !(c.date == d)) =
          l.filter (fun c => !(c.date == d)) :=
      fun l => List.filter_eq_self.mpr (fun a ha => (List.mem_filter.mp ha).2)
    unfold remove_closed_date add_closed_date
    simp [List.filter_cons, hff]
  · intro h
    unfold remove_closed_date
    have : db.closed_dates.filter (fun c => !(c.date == d)) = db.closed_dates := by
      apply List.filter_eq_self.mpr
      intro c hc
      simp only [Bool.not_eq_true', beq_eq_false_iff_ne, ne_eq]
      intro hcd
      apply absurd h
      simp only [is_date_closed, Bool.not_eq_false, List.any_eq_true]
      exact ⟨c, hc, by simp [hcd]⟩
    simp [this]
  · intro cds
    unfold add_booking
    split
    · rfl
    · rfl

def c3db : DB := ⟨[], [], [], 1⟩

/-- Witness for C3: closing 2025-06-10 on the empty state makes a reserve
attempt fail with the closed-date outcome, and reopening restores the
original state. -/
theorem C3_witness :
    reserveFlow (add_closed_date c3db "2025-06-10" "holiday" "t0") 7 "2025-06-10"
      "12:00" "2025-06-10T07:00:00+00:00" "branch_1" "Grammar" "ws" "we" "t1" =
      .dateClosed (some "holiday") ∧
    remove_closed_date (add_closed_date c3db "2025-06-10" "holiday" "t0")
      "2025-06-10" = c3db :=
  ⟨(C3_closed_date_enforcement c3db "2025-06-10" "holiday" "t0" 7 "12:00"
      "2025-06-10T07:00:00+00:00" "branch_1" "Grammar" "ws" "we" "t1").2.1,
   by
    rw [(C3_closed_date_enforcement c3db "2025-06-10" "holiday" "t0" 7 "12:00"
      "2025-06-10T07:00:00+00:00" "branch_1" "Grammar" "ws" "we" "t1").2.2.2.2.1]
    exact (C3_closed_date_enforcement c3db "2025-06-10" "holiday" "t0" 7 "12:00"
      "2025-06-10T07:00:00+00:00" "branch_1" "Grammar" "ws" "we" "t1").2.2.2.2.2.1
      (by decide)⟩

/-- C4: reserve/free/cancel round trip.  A successful `add_booking` starts
from a free slot, makes `is_slot_free` report the instant as taken, and
`cancel_booking` of the returned id frees it again. -/
theorem C4_reserve_cancel_roundtrip (db : DB) (uid : Int)
    (date time ts branch purpose now : String) (bid : Nat) (db' : DB)
    (h : add_booking db uid date time ts branch purpose now = .ok (bid, db')) :
    is_slot_free db ts = true ∧
    is_slot_free db' ts = false ∧
    is_slot_free (cancel_booking db' bid) ts = true := by
  unfold add_booking at h
  split at h
  · exact absurd h (by simp)
  · rename_i hc
    have hc0 : db.bookings.countP (fun b => b.start_ts == ts && b.active) = 0 :=
      Nat.eq_zero_of_not_pos hc
    simp only [Except.ok.injEq, Prod.mk.injEq] at h
    obtain ⟨hbid, hdb⟩ := h
    subst hdb
    refine ⟨by simp [is_slot_free, hc0], ?_, ?_⟩
    · simp [is_slot_free, List.countP_append, hc0, List.countP_cons]
    · have hall := List.countP_eq_zero.mp hc0
      simp only [is_slot_free, cancel_booking]
      rw [List.countP_map]
      rw [List.countP_eq_zero.mpr]
      · rfl
      · intro a ha
        rcases List.mem_append.mp ha with hmem | hmem
        · by_cases hid : a.id == bid
          · simp [Function.comp, hid]
          · simpa [Function.comp, hid] using hall a hmem
        · have : a = ⟨db.nextBookingId, uid, date, time, ts, branch, purpose, true,
              now⟩ := by simpa using hmem
          subst this
          simp [Function.comp, ← hbid]

/-- Witness for C4 at the empty state: book a slot, observe it taken, cancel
it, observe it free. -/
theorem C4_witness :
    is_slot_free c3db "2026-01-05T07:00:00+00:00" = true ∧
    is_slot_free
      { c3db with
        bookings := [⟨1, 7, "2026-01-05", "12:00", "2026-01-05T07:00:00+00:00",
          "branch_1", "Grammar", true, "t1"⟩],
        nextBookingId := 2 } "2026-01-05T07:00:00+00:00" = false ∧
    is_slot_free
      (cancel_booking
        { c3db with
          bookings := [⟨1, 7, "2026-01-05", "12:00", "2026-01-05T07:00:00+00:00",
            "branch_1", "Grammar", true, "t1"⟩],
          nextBookingId := 2 } 1) "2026-01-05T07:00:00+00:00" = true :=
  C4_reserve_cancel_roundtrip c3db 7 "2026-01-05" "12:00"
    "2026-01-05T07:00:00+00:00" "branch_1" "Grammar" "t1" 1
    { c3db with
      bookings := [⟨1, 7, "2026-01-05", "12:00", "2026-01-05T07:00:00+00:00",
        "branch_1", "Grammar", true, "t1"⟩],
      nextBookingId := 2 } (by rfl)

/-- The join produced by `get_unsent_reminders` holds exactly the pairs of
an unsent reminder with its still-existing, still-active owning booking. -/
theorem mem_get_unsent_reminders (db : DB) (rb : Reminder × Booking) :
    rb ∈ get_unsent_reminders db ↔
      (rb.1 ∈ db.reminders ∧ rb.2 ∈ db.bookings ∧ rb.2.id = rb.1.booking_id ∧
       rb.1.sent = false ∧ rb.2.active = true) := by
  unfold get_unsent_reminders
  rw [mem_sortRows, List.mem_filter, List.mem_flatMap]
  constructor
  · rintro ⟨⟨r, hr, hrb⟩, hflags⟩
    rw [List.mem_filterMap] at hrb
    obtain ⟨b, hb, hif⟩ := hrb
    by_cases hcond : r.booking_id == b.id
    · rw [if_pos hcond] at hif
      obtain rfl := Option.some.inj hif
      simp only [Bool.and_eq_true, Bool.not_eq_true'] at hflags
      exact ⟨hr, hb, (eq_of_beq hcond).symm, hflags.1, hflags.2⟩
    · rw [if_neg hcond] at hif
      exact absurd hif (by simp)
  · rintro ⟨h1, h2, h3, h4, h5⟩
    refine ⟨⟨rb.1, h1, ?_⟩, ?_⟩
    · rw [List.mem_filterMap]
      exact ⟨rb.2, h2, by rw [if_pos (by simp [h3])]⟩
    · simp [h4, h5]

/-- C5: `get_due_reminders` returns exactly the reminders that are unsent,
whose owning booking still exists and is still active, and whose parsed
`scheduled_time` is at most `now`; reminders of cancelled or deleted
bookings—and unparsable rows—are never returned. -/
theorem C5_due_reminders_exactly (db : DB) (now_iso : Option String)
    (clock : PyDateTime) (rb : Reminder × Booking) :
    rb ∈ get_due_reminders db now_iso clock ↔
      (rb.1 ∈ db.reminders ∧ rb.2 ∈ db.bookings ∧ rb.2.id = rb.1.booking_id ∧
       rb.1.sent = false ∧ rb.2.active = true ∧
       ∃ d, _parse_start_ts rb.1.scheduled_time = some d ∧
         leDT d (due_now now_iso clock) = true) := by
  unfold get_due_reminders
  rw [List.mem_filter, mem_get_unsent_reminders]
  constructor
  · rintro ⟨⟨h1, h2, h3, h4, h5⟩, hp⟩
    refine ⟨h1, h2, h3, h4, h5, ?_⟩
    rcases hps : _parse_start_ts rb.1.scheduled_time with _ | d
    · rw [hps] at hp
      exact absurd hp (by simp)
    · rw [hps] at hp
      exact ⟨d, rfl, hp⟩
  · rintro ⟨h1, h2, h3, h4, h5, d, hd, hle⟩
    refine ⟨⟨h1, h2, h3, h4, h5⟩, ?_⟩
    rw [hd]
    exact hle

/-- C6: startup replay.  For every unsent reminder joined to an active
booking that survives the startup pruning (with parseable, canonically-UTC
`scheduled_time` and parseable `start_ts`, and a target role the dispatcher
knows — student, or teacher with a nonempty admin list), the startup loop
arms a one-shot timer iff the scheduled instant is strictly in the future;
a reminder already due is not delivered at startup (the loop only arms
timers) and is returned by `get_due_reminders` on the first sweep pass. -/
theorem C6_startup_replay (db : DB) (now_iso : String) (now_utc : PyDateTime)
    (admin_ids : List Int) (rb : Reminder × Booking) (d : PyDateTime)
    (hmem : rb ∈ get_unsent_reminders (delete_past_bookings db now_iso))
    (hsched : fromisoformat rb.1.scheduled_time = some d)
    (hoff : d.offset = some 0)
    (hstart : (fromisoformat rb.2.start_ts).isSome = true)
    (htype : rb.1.reminder_type = "student" ∨
      (rb.1.reminder_type = "teacher" ∧ admin_ids ≠ [])) :
    (arm_jobs_for now_utc admin_ids rb ≠ [] ↔ ltDT now_utc d = true) ∧
    (leDT d now_utc = true →
      rb ∈ get_due_reminders (delete_past_bookings db now_iso) none now_utc) := by
  have hrepl : replace_tzinfo_utc d = d := by
    cases d
    simp only [replace_tzinfo_utc] at hoff ⊢
    simp_all
  obtain ⟨w, hw⟩ := Option.isSome_iff_exists.mp hstart
  constructor
  · unfold arm_jobs_for
    rw [hsched]
    dsimp only
    rw [hrepl, hw]
    by_cases hlt : ltDT now_utc d = true
    · rcases htype with ht | ⟨ht, hne⟩
      · simp [hlt, ht]
      · simp [hlt, ht, hne]
    · simp [Bool.not_eq_true] at hlt
      simp [hlt]
  · intro hle
    have hne : (rb.1.scheduled_time == "") = false := by
      rcases h : rb.1.scheduled_time == ""
      · rfl
      · exfalso
        rw [eq_of_beq h] at hsched
        rw [show fromisoformat "" = (none : Option PyDateTime) from rfl] at hsched
        exact Option.noConfusion hsched
    have hp : _parse_start_ts rb.1.scheduled_time = some d := by
      simp [_parse_start_ts, hne, hsched, hoff]
    unfold get_due_reminders
    dsimp only
    rw [List.mem_filter]
    refine ⟨hmem, ?_⟩
    rw [hp]
    exact hle

def b6 : Booking :=
  ⟨1, 7, "2099-01-05", "08:00", "2099-01-05T07:00:00+00:00", "branch_1", "Grammar",
   true, "t0"⟩

def r6a : Reminder :=
  ⟨1, 1, 7, none, "student", "4h", "2099-01-05T03:00:00+00:00", false, "t0"⟩

def r6b : Reminder :=
  ⟨2, 1, 7, none, "student", "4h", "2020-01-05T03:00:00+00:00", false, "t0"⟩

def db6 : DB := ⟨[b6], [r6a, r6b], [], 2⟩

def now6 : PyDateTime := ⟨2026, 1, 1, 0, 0, 0, 0, some 0⟩

/-- Witness for C6: at startup on 2026-01-01, the 2099 reminder is armed
(its instant is in the future) and the overdue 2020 reminder is picked up
by the sweep query. -/
theorem C6_witness :
    (arm_jobs_for now6 [841456706, 5130327830] (r6a, b6) ≠ [] ↔
      ltDT now6 ⟨2099, 1, 5, 3, 0, 0, 0, some 0⟩ = true) ∧
    (r6b, b6) ∈
      get_due_reminders (delete_past_bookings db6 "2026-01-01T00:00:00+00:00") none
        now6 :=
  ⟨(C6_startup_replay db6 "2026-01-01T00:00:00+00:00" now6 [841456706, 5130327830]
      (r6a, b6) ⟨2099, 1, 5, 3, 0, 0, 0, some 0⟩ (by decide) (by decide) (by decide)
      (by decide) (Or.inl (by decide))).1,
   (C6_startup_replay db6 "2026-01-01T00:00:00+00:00" now6 [841456706, 5130327830]
      (r6b, b6) ⟨2020, 1, 5, 3, 0, 0, 0, some 0⟩ (by decide) (by decide) (by decide)
      (by decide) (Or.inl (by decide))).2 (by decide)⟩

def c7booking : Booking :=
  ⟨1, 7, "2026-01-01", "17:00", "2026-01-01 12:00:00", "branch_1", "Grammar", true,
   "t0"⟩

def c7db : DB := ⟨[c7booking], [], [], 2⟩

def c7now : PyDateTime := ⟨2026, 1, 1, 0, 0, 0, 0, some 0⟩

/-- C7: the paginated upcoming listing compares `start_ts` as raw TEXT.  At
midnight UTC on 2026-01-01 an active booking stored in the legacy
space-separated format for noon that same day parses to an instant 12 hours
in the future (so the spec's upcoming listing must include it — the
Python-side sibling `list_upcoming_bookings` does), yet the TEXT-comparing
`count_upcoming_bookings` reports 0 and `get_upcoming_bookings_paginated`
returns an empty page, because a space sorts before `T`. -/
theorem C7_text_comparison_bug :
    fromisoformat "2026-01-01T00:00:00+00:00" = some c7now ∧
    _parse_start_ts c7booking.start_ts = some ⟨2026, 1, 1, 12, 0, 0, 0, some 0⟩ ∧
    leDT c7now ⟨2026, 1, 1, 12, 0, 0, 0, some 0⟩ = true ∧
    list_upcoming_bookings c7db c7now = [c7booking] ∧
    count_upcoming_bookings c7db "2026-01-01T00:00:00+00:00" = 0 ∧
    get_upcoming_bookings_paginated c7db "2026-01-01T00:00:00+00:00" 10 0 = [] := by
  decide

def db8 : DB :=
  ⟨[⟨1, 7, "2026-01-05", "12:00", "2026-01-05T07:00:00+00:00", "branch_1", "Grammar",
     true, "t0"⟩], [], [], 2⟩

/-- C8: cancel idempotence.  Cancelling twice equals cancelling once; when
no row with the given id is active (including a missing id), cancel is a
no-op; and when exactly one row carries the id, cancelling leaves exactly
one inactive row with that id. -/
theorem C8_cancel_idempotent (db : DB) (bid : Nat) :
    cancel_booking (cancel_booking db bid) bid = cancel_booking db bid ∧
    ((∀ b ∈ db.bookings, b.id = bid → b.active = false) →
      cancel_booking db bid = db) ∧
    (db.bookings.countP (fun b => b.id == bid) = 1 →
      (cancel_booking db bid).bookings.countP
        (fun b => b.id == bid && !b.active) = 1) := by
  refine ⟨?_, ?_, ?_⟩
  · simp only [cancel_booking, List.map_map]
    congr 1
    apply List.map_congr_left
    intro b _
    by_cases h : b.id == bid
    · simp [Function.comp, h]
    · simp [Function.comp, h]
  · intro h
    have : db.bookings.map
        (fun b => if b.id == bid then { b with active := false } else b) =
        db.bookings.map id := by
      apply List.map_congr_left
      intro b hb
      by_cases hid : b.id == bid
      · have hact : b.active = false := h b hb (eq_of_beq hid)
        cases b
        simp_all
      · simp [hid]
    simp only [cancel_booking, this, List.map_id]
  · intro hone
    simp only [cancel_booking]
    rw [List.countP_map]
    rw [← hone]
    apply List.countP_congr
    intro b _
    by_cases hid : b.id == bid
    · simp [Function.comp, hid]
    · simp [Function.comp, hid]

/-- Witness for C8 at a one-booking state: double cancel, cancel of a
missing id, and the exactly-one-cancelled-row count. -/
theorem C8_witness :
    cancel_booking (cancel_booking db8 1) 1 = cancel_booking db8 1 ∧
    cancel_booking db8 99 = db8 ∧
    (cancel_booking db8 1).bookings.countP (fun b => b.id == 1 && !b.active) = 1 :=
  ⟨(C8_cancel_idempotent db8 1).1,
   (C8_cancel_idempotent db8 99).2.1 (by decide),
   (C8_cancel_idempotent db8 1).2.2 (by decide)⟩

theorem filter_and_eq_filter_filter (p q : α → Bool) (l : List α) :
    l.filter (fun a => p a && q a) = (l.filter p).filter q := by
  induction l with
  | nil => rfl
  | cons x xs ih =>
    by_cases hp : p x
    · by_cases hq : q x
      · simp [List.filter_cons, hp, hq, ih]
      · simp [List.filter_cons, hp, hq, ih]
    · simp [List.filter_cons, hp, ih]

/-- Recording one more applied name refines the pending computation by
dropping the migrations bearing that name. -/
theorem pendingOf_append_one {σ : Type} (migs : List (Migration σ))
    (applied : List String) (n : String) :
    pendingOf migs (applied ++ [n]) =
      (pendingOf migs applied).filter (fun m => !(m.1 == n)) := by
  unfold pendingOf
  rw [← filter_and_eq_filter_filter]
  apply List.filter_congr
  intro m _
  simp [List.mem_append]
  tauto

/-- After successfully running the head of the pending list and recording
it, the pending computation yields exactly the tail (using that registered
names are distinct). -/
theorem pendingOf_after_head {σ : Type} (migs : List (Migration σ))
    (applied : List String) (n : String) (f : σ → Except String σ)
    (rest : List (Migration σ))
    (hnd : (migs.map Prod.fst).Nodup)
    (hp : (n, f) :: rest = pendingOf migs applied) :
    pendingOf migs (applied ++ [n]) = rest := by
  have hndp : ((pendingOf migs applied).map Prod.fst).Nodup :=
    hnd.sublist ((List.filter_sublist migs).map Prod.fst)
  rw [← hp] at hndp
  simp only [List.map_cons, List.nodup_cons] at hndp
  rw [pendingOf_append_one, ← hp]
  simp only [List.filter_cons, beq_self_eq_true, Bool.not_true, Bool.false_eq_true,
    if_false]
  apply List.filter_eq_self.mpr
  intro m hm
  have hne : m.1 ≠ n := fun hmn => hndp.1 (hmn ▸ List.mem_map_of_mem Prod.fst hm)
  simp [hne]

/-- The head of the pending list is not yet recorded as applied. -/
theorem pending_head_not_applied {σ : Type} (migs : List (Migration σ))
    (applied : List String) (n : String) (f : σ → Except String σ)
    (rest : List (Migration σ))
    (hp : (n, f) :: rest = pendingOf migs applied) : n ∉ applied := by
  have hmem : (n, f) ∈ pendingOf migs applied := hp ▸ List.mem_cons_self _ _
  have := (List.mem_filter.mp hmem).2
  simpa using this

/-- Full characterization of the migration loop, by induction on the
pending list. -/
theorem runPendingGo_spec {σ : Type} (migs : List (Migration σ)) :
    ∀ (p : List (Migration σ)) (applied : List String) (s : σ),
    (migs.map Prod.fst).Nodup →
    p = pendingOf migs applied →
    (∀ applied' s', runPendingGo p applied s = .ok (applied', s') →
      applied' = applied ++ p.map Prod.fst ∧ pendingOf migs applied' = []) ∧
    (∀ name applied' s',
      runPendingGo p applied s = .error (name, applied', s') →
      ∃ i, ∃ hi : i < p.length,
        (p.get ⟨i, hi⟩).1 = name ∧
        applied' = applied ++ (p.take i).map Prod.fst ∧
        name ∉ applied' ∧
        pendingOf migs applied' = p.drop i) := by
  intro p
  induction p with
  | nil =>
    intro applied s hnd hp
    constructor
    · intro applied' s' h
      simp only [runPendingGo, Except.ok.injEq, Prod.mk.injEq] at h
      obtain ⟨rfl, -⟩ := h
      exact ⟨by simp, hp.symm⟩
    · intro name applied' s' h
      simp [runPendingGo] at h
  | cons hd rest ih =>
    intro applied s hnd hp
    obtain ⟨n, f⟩ := hd
    have hnotin : n ∉ applied := pending_head_not_applied migs applied n f rest hp
    have hmark : mark_migration_applied applied n = applied ++ [n] := by
      unfold mark_migration_applied
      rw [if_neg (by simpa using hnotin)]
    have hrest : pendingOf migs (applied ++ [n]) = rest :=
      pendingOf_after_head migs applied n f rest hnd hp
    constructor
    · intro applied' s' h
      unfold runPendingGo at h
      split at h
      · exact absurd h (by simp)
      · rename_i s2 heq
        rw [hmark] at h
        obtain ⟨h1, h2⟩ := (ih (applied ++ [n]) s2 hnd hrest.symm).1 applied' s' h
        refine ⟨?_, h2⟩
        rw [h1, List.append_assoc]
        rfl
    · intro name applied' s' h
      unfold runPendingGo at h
      split at h
      · simp only [Except.error.injEq, Prod.mk.injEq] at h
        obtain ⟨rfl, rfl, rfl⟩ := h
        refine ⟨0, by simp, rfl, by simp, hnotin, ?_⟩
        simpa using hp.symm
      · rename_i s2 heq
        rw [hmark] at h
        obtain ⟨i, hi, hget, happ, hnm, hpend⟩ :=
          (ih (applied ++ [n]) s2 hnd hrest.symm).2 name applied' s' h
        refine ⟨i + 1, by simpa using Nat.succ_lt_succ hi, hget, ?_, hnm, hpend⟩
        rw [happ, List.append_assoc]
        rfl

/-- C9: the migration runner executes exactly the not-yet-applied
registered migrations in registration order.  On success every pending
name is appended to the applied set (in order) and nothing remains pending;
if migration `i` of the pending list raises, exactly the pending names
before it are recorded, the failed name itself is not, and a re-run's
pending computation starts at the failed migration. -/
theorem C9_migration_runner {σ : Type} (migs : List (Migration σ))
    (applied : List String) (s : σ)
    (hnd : (migs.map Prod.fst).Nodup) :
    (∀ applied' s', run_all_migrations migs applied s = .ok (applied', s') →
      applied' = applied ++ (pendingOf migs applied).map Prod.fst ∧
      pendingOf migs applied' = []) ∧
    (∀ name applied' s',
      run_all_migrations migs applied s = .error (name, applied', s') →
      ∃ i, ∃ hi : i < (pendingOf migs applied).length,
        ((pendingOf migs applied).get ⟨i, hi⟩).1 = name ∧
        applied' = applied ++ ((pendingOf migs applied).take i).map Prod.fst ∧
        name ∉ applied' ∧
        pendingOf migs applied' = (pendingOf migs applied).drop i) :=
  runPendingGo_spec migs (pendingOf migs applied) applied s hnd rfl

/-- Three registered migrations over a `Nat` store: the second one fails. -/
def c9migs : List (Migration Nat) :=
  [("001_add_booking_notes", fun n => .ok (n + 1)),
   ("002_add_booking_delay_column", fun _ => .error "boom"),
   ("003_add_user_preferences", fun n => .ok (n + 10))]

/-- Witness for C9: running the three-migration pack from an empty applied
set records only the first migration, reports the second as failed, and a
re-run would resume at the failed migration. -/
theorem C9_witness :
    run_all_migrations c9migs [] 0 =
      .error ("002_add_booking_delay_column", ["001_add_booking_notes"], 1) ∧
    pendingOf c9migs ["001_add_booking_notes"] = List.drop 1 (pendingOf c9migs []) ∧
    "002_add_booking_delay_column" ∉ ["001_add_booking_notes"] := by
  refine ⟨by rfl, ?_, ?_⟩
  · obtain ⟨i, hi, hget, happ, hnm, hpend⟩ :=
      (C9_migration_runner c9migs [] 0 (by decide)).2 "002_add_booking_delay_column"
        ["001_add_booking_notes"] 1 (by rfl)
    have hlen : (pendingOf c9migs []).length = 3 := by rfl
    have hi3 : i < 3 := hlen ▸ hi
    have hi1 : i = 1 := by
      rcases i with _ | _ | _ | j
      · rw [show ((pendingOf c9migs []).get ⟨0, hi⟩).1 = "001_add_booking_notes"
          from rfl] at hget
        exact absurd hget (by decide)
      · rfl
      · rw [show ((pendingOf c9migs []).get ⟨2, hi⟩).1 = "003_add_user_preferences"
          from rfl] at hget
        exact absurd hget (by decide)
      · omega
    subst hi1
    exact hpend
  · decide

/-- C10 counterexample: the claim says every successfully parsed value is a
UTC datetime, but an input carrying an explicit non-UTC offset is returned
with that offset untouched (`_parse_start_ts` localizes only naive values
and never converts aware ones). -/
theorem C10_counterexample :
    ¬(_parse_start_ts "2025-01-01T00:00:00+05:00" = none ∨
      ∃ d, _parse_start_ts "2025-01-01T00:00:00+05:00" = some d ∧
        d.offset = some 0) := by
  have hval : _parse_start_ts "2025-01-01T00:00:00+05:00" =
      some ⟨2025, 1, 1, 0, 0, 0, 0, some 18000⟩ := by decide
  rintro (h | ⟨d, hd, hoff⟩)
  · rw [hval] at h
    exact Option.noConfusion h
  · rw [hval] at hd
    have := Option.some.inj hd
    subst this
    exact absurd hoff (by decide)

/-- C10 (amended): `_parse_start_ts` is total — it returns `None` on empty
or unparsable text and otherwise a timezone-aware datetime; a naive parse
is localized to UTC while an already-aware parse keeps its offset.
Consequently the quota count and the user listing silently skip a row
whose stored `start_ts` fails to parse instead of aborting. -/
theorem C10_parser_totality :
    (∀ s, _parse_start_ts s = none ∨
      ∃ d, _parse_start_ts s = some d ∧ d.offset ≠ none) ∧
    _parse_start_ts "" = none ∧
    (∀ s d, fromisoformat s = some d → d.offset = none →
      _parse_start_ts s = some (pytz_utc_localize d)) ∧
    (∀ db uid ws we (b : Booking), _parse_start_ts b.start_ts = none →
      count_user_bookings_in_week { db with bookings := b :: db.bookings } uid ws
        we = count_user_bookings_in_week db uid ws we) ∧
    (∀ db uid now (b : Booking), _parse_start_ts b.start_ts = none →
      list_user_bookings { db with bookings := b :: db.bookings } uid now =
        list_user_bookings db uid now) := by
  refine ⟨?_, by decide, ?_, ?_, ?_⟩
  · intro s
    rcases h : _parse_start_ts s with _ | d
    · exact Or.inl rfl
    · refine Or.inr ⟨d, rfl, ?_⟩
      unfold _parse_start_ts at h
      split at h
      · exact absurd h (by simp)
      · rcases hf : fromisoformat s with _ | d1
        · rw [hf] at h
          dsimp only at h
          rcases hst : strptime_YmdTHMS s with _ | d2
          · rw [hst] at h
            exact absurd h (by simp)
          · rw [hst] at h
            dsimp only at h
            have := Option.some.inj h
            subst this
            rcases ho : d2.offset == none with _ | _
            · simp only [ho, Bool.false_eq_true, if_false]
              simpa using ho
            · simp only [ho, if_true]
              simp [pytz_utc_localize]
        · rw [hf] at h
          dsimp only at h
          have := Option.some.inj h
          subst this
          rcases ho : d1.offset == none with _ | _
          · simp only [ho, Bool.false_eq_true, if_false]
            simpa using ho
          · simp only [ho, if_true]
            simp [pytz_utc_localize]
  · intro s d hf hoff
    have hsb : (s == "") = false := by
      rcases h : s == "" with _ | _
      · rfl
      · rw [eq_of_beq h] at hf
        rw [show fromisoformat "" = (none : Option PyDateTime) from rfl] at hf
        exact Option.noConfusion hf
    simp [_parse_start_ts, hsb, hf, hoff]
  · intro db uid ws we b hb
    have hqb : ∀ q : PyDateTime → Bool,
        (match _parse_start_ts b.start_ts with
         | none => false
         | some d => q d) = false := by
      intro q
      rw [hb]
    simp only [count_user_bookings_in_week, List.filter_cons]
    by_cases hrow : (b.user_id == uid && b.active) = true
    · simp only [hrow, if_true, List.isEmpty_cons, Bool.false_eq_true, if_false]
      rcases hemp : (db.bookings.filter
          (fun b => b.user_id == uid && b.active)).isEmpty with _ | _
      · simp only [hemp, Bool.false_eq_true, if_false, List.countP_cons]
        rw [hb]
        simp
      · rw [List.isEmpty_iff.mp hemp]
        simp [List.countP_cons, hb]
    · simp [hrow]
  · intro db uid now b hb
    simp only [list_user_bookings, List.filter_cons]
    by_cases hrow : (b.user_id == uid && b.active) = true
    · simp only [hrow, if_true, List.filterMap_cons]
      rw [hb]
    · simp [hrow]

def badBooking : Booking :=
  ⟨9, 7, "2026-01-05", "12:00", "not-a-timestamp", "branch_1", "Grammar", true, "t0"⟩

/-- Witness for C10: a naive parse is localized to UTC, and a row with
unparsable `start_ts` does not change the weekly quota count. -/
theorem C10_witness :
    _parse_start_ts "2026-01-01T05:00:00" =
      some (pytz_utc_localize ⟨2026, 1, 1, 5, 0, 0, 0, none⟩) ∧
    count_user_bookings_in_week { db8 with bookings := badBooking :: db8.bookings }
      7 "2026-01-05T00:00:00+00:00" "2026-01-12T00:00:00+00:00" =
      count_user_bookings_in_week db8 7 "2026-01-05T00:00:00+00:00"
        "2026-01-12T00:00:00+00:00" :=
  ⟨C10_parser_totality.2.2.1 "2026-01-01T05:00:00" ⟨2026, 1, 1, 5, 0, 0, 0, none⟩
    (by decide) (by decide),
   C10_parser_totality.2.2.2.1 db8 7 "2026-01-05T00:00:00+00:00"
    "2026-01-12T00:00:00+00:00" badBooking (by decide)⟩

end LessonBot
